import Mathlib

set_option maxRecDepth 8192

/-!
Shallow embedding of the Chirpy HTTP backend (src/main.go) and proofs about
its request-handling core: the text censor, the chirp validator, the hit
counter, the platform-gated admin reset and the user-creation handler.

Modelling conventions:
* Go strings are Lean `String`s.  The byte-level operations used by the code
  (`strings.Split` with the one-byte separator `" "`, `strings.Join`,
  `len`) are modelled on the character list `String.data`; this is faithful
  because the separator `' '` is ASCII and UTF-8 continuation bytes never
  coincide with an ASCII byte.
* `strings.ToLower` is modelled character-wise with `Char.toLower` (the
  ASCII fragment, which is all the forbidden-word comparison exercises).
* The `atomic.Int32` hit counter is modelled as an `Int` with explicit
  two's-complement wrap-around at 32 bits.
* Fallible external effects (JSON decoding, database statements) are
  modelled with `Except`/`Bool` parameters; the database is an opaque
  persistence service per the spec, represented by the list of stored rows.
* `time.Now()` readings and `uuid.New()` results enter the handlers as
  explicit parameters drawn from modelled sources.
-/

namespace Chirpy

/-! ## Character-level split and join (strings.Split / strings.Join) -/

/-- Model of Go `strings.Split(s, sep)` for a one-character separator, on
character lists: purely positional splitting that preserves empty tokens
from consecutive separators; `splitCh c [] = [[]]` just as
`strings.Split("", " ") = [""]`. -/
def splitCh (c : Char) : List Char → List (List Char)
  | [] => [[]]
  | x :: xs =>
    if x = c then [] :: splitCh c xs
    else
      match splitCh c xs with
      | [] => [[x]]
      | t :: ts => (x :: t) :: ts

/-- Model of Go `strings.Join(l, sep)` for a one-character separator, on
character lists: interleave the separator between consecutive tokens. -/
def joinCh (c : Char) : List (List Char) → List Char
  | [] => []
  | [t] => t
  | t :: t' :: ts => t ++ c :: joinCh c (t' :: ts)

/-- Go `strings.Split(s, " ")` on strings (tokens as strings). -/
def goSplit (c : Char) (s : String) : List String :=
  (splitCh c s.data).map String.mk

/-- Go `strings.Join(l, " ")` on strings. -/
def goJoin (c : Char) (l : List String) : String :=
  String.mk (joinCh c (l.map String.data))

/-- Go `strings.ToLower` (ASCII fragment). -/
def goToLower (s : String) : String :=
  String.mk (s.data.map Char.toLower)

/-- Go `len(s)`: the UTF-8 byte length of the string. -/
def goLen (s : String) : Nat := s.utf8ByteSize

/-! ## The text censor (censorText, src/main.go lines 141-155) -/

/-- Source line 24: `var forbiddenWords = []string{...}`. -/
def forbiddenWords : List String := ["kerfuffle", "sharbert", "fornax"]

/-- Source line 26: `const maxChirpLength = 140`. -/
def maxChirpLength : Nat := 140

/-- The inner `for _, forbidden := range words` loop of `censorText`:
return the mask `"****"` on the first forbidden word equal to `lowerWord`
(then `break`), otherwise keep the original token. -/
def censorLoop (lowerWord orig : String) : List String → String
  | [] => orig
  | forbidden :: rest =>
    if lowerWord = forbidden then "****" else censorLoop lowerWord orig rest

/-- Per-token body of `censorText`'s outer loop: lowercase the token and run
the inner loop over the forbidden list. -/
def censorWord (words : List String) (word : String) : String :=
  censorLoop (goToLower word) word words

/-- Embedding of `censorText(text, words)` (src/main.go lines 141-155):
split on single spaces, replace matched tokens in place, rejoin with single
spaces. -/
def censorText (text : String) (words : List String) : String :=
  goJoin ' ' ((goSplit ' ' text).map (censorWord words))

/-- Spec-side censor, written from the words of spec.md section 4.1: split
`text` on single space characters (preserving empty tokens); a token is
replaced by the literal marker `"****"` exactly when its lowercase form is a
member of the forbidden set (whole-token equality, never substring); rejoin
with single spaces.  Stated separately from `censorText` so the code can be
proved to refine the spec. -/
def censorSpec (text : String) (forbidden : List String) : String :=
  goJoin ' '
    ((goSplit ' ' text).map fun tok =>
      if goToLower tok ∈ forbidden then "****" else tok)

/-! ## Chirp validation (chirpValidateHandler, src/main.go lines 103-126) -/

/-- The JSON request shape `chirpRequest` (source lines 28-30). -/
structure chirpRequest where
  Body : String
deriving DecidableEq

/-- Structured response bodies written by the handlers, before JSON
marshalling: `errorResponse`, `successResponse`, the created user record and
the plain-text reset confirmation. -/
inductive RespBody where
  | errMsg (s : String)
  | cleanedBody (s : String)
  | userRecord (id email : String) (createdAt updatedAt : Int)
  | plainText (s : String)
deriving DecidableEq

/-- Embedding of `chirpValidateHandler` (source lines 103-126).  The result
of `json.NewDecoder(r.Body).Decode(&req)` enters as an `Except` parameter.
Returns the HTTP status code and the structured response body. -/
def chirpValidateHandler (decoded : Except Unit chirpRequest) :
    Nat × RespBody :=
  match decoded with
  | .error _ => (400, .errMsg "Invalid request body")
  | .ok req =>
    if goLen req.Body > maxChirpLength then
      (400, .errMsg "Chirp is too long")
    else
      (200, .cleanedBody (censorText req.Body forbiddenWords))

/-! ## The hit counter (apiConfig.fileserverHits, an atomic.Int32) -/

/-- Two's-complement wrap-around of a 32-bit signed integer, the value
semantics of `atomic.Int32`. -/
def int32wrap (n : Int) : Int := (n + 2 ^ 31) % 2 ^ 32 - 2 ^ 31

/-- The two operations the source performs on `fileserverHits`:
`Add(1)` in `middlewareMetricsInc` (lines 134-139) and `Store(0)` in
`resetHandler` (line 180). -/
inductive CounterOp where
  | inc
  | reset
deriving DecidableEq

/-- One counter transition: `Add(1)` wraps at 32 bits, `Store(0)` zeroes. -/
def counterStep (s : Int) : CounterOp → Int
  | .inc => int32wrap (s + 1)
  | .reset => 0

/-- The counter value (`Load()`) after running a sequence of operations
from the initial value 0. -/
def runCounter (ops : List CounterOp) : Int :=
  ops.foldl counterStep 0

/-- The number of `inc` operations after the last `reset` in a sequence. -/
def incsSinceReset (ops : List CounterOp) : Nat :=
  ops.foldl (fun n op => match op with | .inc => n + 1 | .reset => 0) 0

/-! ## Server state and the admin reset (resetHandler, lines 173-190) -/

/-- A persisted user row, as inserted by `createUserHandler` (timestamps as
abstract clock readings). -/
structure User where
  ID : String
  Email : String
  CreatedAt : Int
  UpdatedAt : Int
deriving DecidableEq

/-- The mutable state `resetHandler` touches: the hit counter and the rows
of the `users` table (the opaque persistence service). -/
structure ServerState where
  fileserverHits : Int
  users : List User
deriving DecidableEq

/-- main.go lines 60-63: `os.Getenv("PLATFORM")` yields `""` when the
variable is absent, and `main` defaults that to `"prod"`. -/
def effectivePlatform (env : String) : String :=
  if env = "" then "prod" else env

/-- Embedding of `resetHandler` (source lines 173-190).  `dbExecDelete`
models `cfg.db.Exec("DELETE FROM users")`: on success the table is empty; on
failure it reports the rows the storage layer left behind (unspecified by
the core).  The platform gate is checked first; only then is the counter
stored to 0 and the delete attempted. -/
def resetHandler (platform : String) (st : ServerState)
    (dbExecDelete : List User → Except (List User) Unit) :
    Nat × RespBody × ServerState :=
  if platform ≠ "dev" then
    (403, .errMsg "Forbidden", st)
  else
    match dbExecDelete st.users with
    | .error leftover =>
      (500, .errMsg "Failed to reset users", ⟨0, leftover⟩)
    | .ok _ =>
      (200, .plainText "Counter reset and users deleted\n", ⟨0, []⟩)

/-! ## User creation (createUserHandler, lines 192-221) -/

/-- Model of `uuid.New().String()` from the external google/uuid
collaborator, which the spec describes as generating "a fresh unique id":
the n-th call of the process yields `uuidNew n`; distinct calls yield
distinct non-empty identifiers (the format of the identifier is irrelevant
to every claim). -/
def uuidNew (n : Nat) : String :=
  String.mk ('u' :: List.replicate n 'x')

/-- Embedding of `createUserHandler` (source lines 192-221).  `decoded` is
the result of decoding the request body into the anonymous
`struct` with the single `Email` field; `uid` is the `uuid.New().String()`
result; `t1` and `t2` are the two consecutive `time.Now()` readings taken
for `CreatedAt` and `UpdatedAt`; `dbInsertOk` is the outcome of the
`INSERT INTO users` statement, which persists exactly the fields of the
record that is returned to the caller. -/
def createUserHandler (decoded : Except Unit String) (uid : String)
    (t1 t2 : Int) (dbInsertOk : Bool) (users : List User) :
    Nat × RespBody × List User :=
  match decoded with
  | .error _ => (400, .errMsg "Invalid request body", users)
  | .ok email =>
    if dbInsertOk then
      (201, .userRecord uid email t1 t2, users ++ [⟨uid, email, t1, t2⟩])
    else
      (500, .errMsg "Failed to create user", users)

/-! ## JSON values and the decode semantics of the create-user request -/

/-- JSON values (numbers as integers; the fractional part of a number never
matters to the claims, only its being a non-string). -/
inductive Json where
  | null
  | bool (b : Bool)
  | num (n : Int)
  | str (s : String)
  | arr (elems : List Json)
  | obj (fields : List (String × Json))

/-- One field of a JSON object, as consumed by Go's `encoding/json` when
unmarshalling into the anonymous struct with the single field
`Email string` tagged `json:"email"`: a key matches the field exactly or
case-insensitively; a matching string value overwrites the field, a
matching `null` is a no-op, any other matching value is an unmarshal type
error; non-matching keys are ignored.  Later duplicate keys overwrite
earlier ones. -/
def decodeEmailStep (acc : Except Unit String) (kv : String × Json) :
    Except Unit String :=
  match acc with
  | .error e => .error e
  | .ok cur =>
    if goToLower kv.1 = "email" then
      match kv.2 with
      | .str s => .ok s
      | .null => .ok cur
      | _ => .error ()
    else .ok cur

/-- Go `json.NewDecoder(r.Body).Decode(&req)` for the create-user request:
the top-level value must be an object; the `Email` field starts at the Go
zero value `""` and is updated field by field. -/
def decodeCreateUserReq (j : Json) : Except Unit String :=
  match j with
  | .obj fields => fields.foldl decodeEmailStep (.ok "")
  | _ => .error ()

/-- `createUserHandler` applied to a concrete JSON request body. -/
def createUserHandlerJson (j : Json) (uid : String) (t1 t2 : Int)
    (dbInsertOk : Bool) (users : List User) :
    Nat × RespBody × List User :=
  createUserHandler (decodeCreateUserReq j) uid t1 t2 dbInsertOk users

/-! ## Lemmas about the character-level split and join -/

theorem splitCh_ne_nil (c : Char) (xs : List Char) : splitCh c xs ≠ [] := by
  induction xs with
  | nil => simp [splitCh]
  | cons x xs ih =>
    simp only [splitCh]
    split
    · simp
    · cases h : splitCh c xs with
      | nil => simp
      | cons t ts => simp

theorem mem_splitCh (c : Char) (xs : List Char) :
    ∀ l ∈ splitCh c xs, c ∉ l := by
  induction xs with
  | nil =>
    intro l hl
    simp only [splitCh, List.mem_singleton] at hl
    simp [hl]
  | cons x xs ih =>
    intro l hl
    simp only [splitCh] at hl
    by_cases hx : x = c
    · rw [if_pos hx] at hl
      rcases List.mem_cons.mp hl with h | h
      · simp [h]
      · exact ih l h
    · rw [if_neg hx] at hl
      cases h : splitCh c xs with
      | nil => exact absurd h (splitCh_ne_nil c xs)
      | cons t ts =>
        rw [h] at hl
        rcases List.mem_cons.mp hl with h1 | h1
        · subst h1
          intro hc
          rcases List.mem_cons.mp hc with h2 | h2
          · exact hx h2.symm
          · exact ih t (h ▸ List.mem_cons_self t ts) h2
        · exact ih l (h ▸ List.mem_cons_of_mem t h1)

theorem splitCh_no_sep (c : Char) (t : List Char) (h : c ∉ t) :
    splitCh c t = [t] := by
  induction t with
  | nil => rfl
  | cons x xs ih =>
    have h1 : c ≠ x := List.ne_of_not_mem_cons h
    have h2 : c ∉ xs := List.not_mem_of_not_mem_cons h
    simp only [splitCh]
    rw [if_neg (Ne.symm h1), ih h2]

theorem splitCh_sep_append (c : Char) (t ys : List Char) (h : c ∉ t) :
    splitCh c (t ++ c :: ys) = t :: splitCh c ys := by
  induction t with
  | nil => simp [splitCh]
  | cons x xs ih =>
    have h1 : c ≠ x := List.ne_of_not_mem_cons h
    have h2 : c ∉ xs := List.not_mem_of_not_mem_cons h
    simp only [List.cons_append, splitCh, List.append_eq]
    rw [if_neg (Ne.symm h1), ih h2]

theorem splitCh_joinCh (c : Char) (ts : List (List Char)) (hne : ts ≠ [])
    (hfree : ∀ l ∈ ts, c ∉ l) : splitCh c (joinCh c ts) = ts := by
  induction ts with
  | nil => exact absurd rfl hne
  | cons t rest ih =>
    cases rest with
    | nil => exact splitCh_no_sep c t (hfree t (List.mem_cons_self t []))
    | cons t' ts' =>
      have hjoin : joinCh c (t :: t' :: ts') = t ++ c :: joinCh c (t' :: ts') := rfl
      rw [hjoin, splitCh_sep_append c t _ (hfree t (List.mem_cons_self t _)),
        ih (List.cons_ne_nil t' ts')
          (fun l hl => hfree l (List.mem_cons_of_mem t hl))]

theorem goSplit_ne_nil (c : Char) (s : String) : goSplit c s ≠ [] := by
  intro h
  exact splitCh_ne_nil c s.data (List.map_eq_nil_iff.mp h)

theorem mem_goSplit (c : Char) (s : String) :
    ∀ w ∈ goSplit c s, c ∉ w.data := by
  intro w hw
  obtain ⟨l, hl, rfl⟩ := List.mem_map.mp hw
  exact mem_splitCh c s.data l hl

theorem goSplit_goJoin (c : Char) (l : List String) (hne : l ≠ [])
    (hfree : ∀ s ∈ l, c ∉ s.data) : goSplit c (goJoin c l) = l := by
  unfold goSplit goJoin
  have hd : (String.mk (joinCh c (l.map String.data))).data =
      joinCh c (l.map String.data) := rfl
  rw [hd, splitCh_joinCh c (l.map String.data)
      (fun h => hne (List.map_eq_nil_iff.mp h))
      (fun ld hld => by
        obtain ⟨s, hs, rfl⟩ := List.mem_map.mp hld
        exact hfree s hs),
    List.map_map]
  have : (String.mk ∘ String.data) = fun s : String => s := by
    funext s
    rfl
  rw [this, List.map_id']

/-! ## Lemmas about the per-token censor step -/

theorem censorLoop_eq (lw orig : String) (ws : List String) :
    censorLoop lw orig ws = if lw ∈ ws then "****" else orig := by
  induction ws with
  | nil => simp [censorLoop]
  | cons f fs ih =>
    simp only [censorLoop, ih, List.mem_cons]
    by_cases h : lw = f
    · simp [h]
    · simp [h]

theorem censorWord_eq (ws : List String) (w : String) :
    censorWord ws w = if goToLower w ∈ ws then "****" else w :=
  censorLoop_eq (goToLower w) w ws

theorem censorWord_space_free (ws : List String) (w : String)
    (h : ' ' ∉ w.data) : ' ' ∉ (censorWord ws w).data := by
  rw [censorWord_eq]
  by_cases hm : goToLower w ∈ ws
  · rw [if_pos hm]
    decide
  · rw [if_neg hm]
    exact h

theorem censorWord_idem (ws : List String) (w : String) :
    censorWord ws (censorWord ws w) = censorWord ws w := by
  rw [censorWord_eq ws w]
  by_cases hm : goToLower w ∈ ws
  · rw [if_pos hm, censorWord_eq]
    by_cases hs : goToLower "****" ∈ ws
    · rw [if_pos hs]
    · rw [if_neg hs]
  · rw [if_neg hm, censorWord_eq, if_neg hm]

/-- C1: `censorText` splits its input on single space characters (keeping
empty tokens), replaces exactly those tokens whose lowercase form equals a
forbidden word (whole-token equality, never substring) with the literal
marker `"****"`, and rejoins with single spaces — it coincides with the
spec-side `censorSpec` on every input; in particular
`censorText "Kerfuffle happened" = "**** happened"` while the punctuated
`censorText "kerfuffle! now" = "kerfuffle! now"` is left alone. -/
theorem c1_censor_refines_spec :
    (∀ text : String,
      censorText text forbiddenWords = censorSpec text forbiddenWords)
    ∧ censorText "Kerfuffle happened" forbiddenWords = "**** happened"
    ∧ censorText "kerfuffle! now" forbiddenWords = "kerfuffle! now" := by
  refine ⟨fun text => ?_, by decide, by decide⟩
  unfold censorText censorSpec
  exact congrArg (goJoin ' ')
    (List.map_congr_left fun w _ => censorWord_eq forbiddenWords w)

/-- C7: the censor is idempotent for every text and every forbidden set:
censoring an already-censored text changes nothing. -/
theorem c7_censor_idempotent (t : String) (F : List String) :
    censorText (censorText t F) F = censorText t F := by
  unfold censorText
  rw [goSplit_goJoin ' ' ((goSplit ' ' t).map (censorWord F))
      (fun h => goSplit_ne_nil ' ' t (List.map_eq_nil_iff.mp h))
      (fun s hs => by
        obtain ⟨v, hv, rfl⟩ := List.mem_map.mp hs
        exact censorWord_space_free F v (mem_goSplit ' ' t v hv)),
    List.map_map]
  exact congrArg (goJoin ' ')
    (List.map_congr_left fun w _ => censorWord_idem F w)

/-- C2: the chirp validator rejects a body as too long exactly when its
length exceeds 140 (Go `len`, raw byte units); a 141-character body is
rejected with the too-long error and a 140-character body is accepted. -/
theorem c2_length_gate :
    (∀ body : String,
      (chirpValidateHandler (.ok ⟨body⟩)).2 = RespBody.errMsg "Chirp is too long" ↔
        maxChirpLength < goLen body)
    ∧ chirpValidateHandler (.ok ⟨String.mk (List.replicate 141 'a')⟩) =
        (400, RespBody.errMsg "Chirp is too long")
    ∧ (chirpValidateHandler (.ok ⟨String.mk (List.replicate 140 'a')⟩)).1 = 200 := by
  refine ⟨fun body => ?_, by decide, by decide⟩
  unfold chirpValidateHandler
  by_cases h : goLen body > maxChirpLength
  · simp [h]
  · simp [h]

/-- C3: each call of the chirp-validation endpoint yields exactly one of
three outcomes, checked in this order: a 400 "Invalid request body" when the
payload does not parse, a 400 "Chirp is too long" when the parsed body
exceeds 140, and otherwise a 200 carrying the censored body. -/
theorem c3_validate_trichotomy (d : Except Unit chirpRequest) :
    (∃ e, d = .error e ∧
      chirpValidateHandler d = (400, RespBody.errMsg "Invalid request body"))
    ∨ (∃ r, d = .ok r ∧ maxChirpLength < goLen r.Body ∧
      chirpValidateHandler d = (400, RespBody.errMsg "Chirp is too long"))
    ∨ (∃ r, d = .ok r ∧ goLen r.Body ≤ maxChirpLength ∧
      chirpValidateHandler d =
        (200, RespBody.cleanedBody (censorText r.Body forbiddenWords))) := by
  match d with
  | .error e => exact Or.inl ⟨e, rfl, rfl⟩
  | .ok r =>
    by_cases h : goLen r.Body > maxChirpLength
    · exact Or.inr (Or.inl ⟨r, rfl, h, by simp [chirpValidateHandler, h]⟩)
    · exact Or.inr (Or.inr ⟨r, rfl, Nat.le_of_not_lt h,
        by simp [chirpValidateHandler, h]⟩)

/-! ## Lemmas about the hit counter -/

theorem int32wrap_step (k : Int) :
    int32wrap (int32wrap k + 1) = int32wrap (k + 1) := by
  unfold int32wrap
  omega

theorem runCounter_append (ops : List CounterOp) (op : CounterOp) :
    runCounter (ops ++ [op]) = counterStep (runCounter ops) op := by
  unfold runCounter
  rw [List.foldl_append]
  rfl

theorem incsSinceReset_append_inc (ops : List CounterOp) :
    incsSinceReset (ops ++ [.inc]) = incsSinceReset ops + 1 := by
  unfold incsSinceReset
  rw [List.foldl_append]
  rfl

theorem incsSinceReset_append_reset (ops : List CounterOp) :
    incsSinceReset (ops ++ [.reset]) = 0 := by
  unfold incsSinceReset
  rw [List.foldl_append]
  rfl

theorem runCounter_eq_wrap (ops : List CounterOp) :
    runCounter ops = int32wrap (incsSinceReset ops) := by
  induction ops using List.reverseRecOn with
  | nil => decide
  | append_singleton ops op ih =>
    cases op with
    | inc =>
      rw [runCounter_append, incsSinceReset_append_inc]
      show int32wrap (runCounter ops + 1) = _
      rw [ih, int32wrap_step]
      push_cast
      rfl
    | reset =>
      rw [runCounter_append, incsSinceReset_append_reset]
      show (0 : Int) = int32wrap ((0 : Nat) : Int)
      decide

theorem incsSinceReset_replicate_inc (n : Nat) :
    incsSinceReset (List.replicate n CounterOp.inc) = n := by
  have key : ∀ m k : Nat,
      (List.replicate m CounterOp.inc).foldl
        (fun n' op => match op with | .inc => n' + 1 | .reset => 0) k = k + m := by
    intro m
    induction m with
    | zero => intro k; simp
    | succ m' ih =>
      intro k
      rw [List.replicate_succ, List.foldl_cons]
      show (List.replicate m' CounterOp.inc).foldl _ (k + 1) = k + (m' + 1)
      rw [ih (k + 1)]
      omega
  unfold incsSinceReset
  rw [key n 0]
  omega

/-- C8 counterexample: the claim that `value()` never observes a negative
number fails on the code, because `fileserverHits` is an `atomic.Int32`:
after 2^31 increments from zero the 32-bit counter has wrapped to a
negative value. -/
theorem c8_counterexample_int32_overflow :
    runCounter (List.replicate (2 ^ 31) CounterOp.inc) < 0 := by
  rw [runCounter_eq_wrap, incsSinceReset_replicate_inc]
  unfold int32wrap
  omega

/-- C8 (amended): the hit counter's `Store(0)` always yields value 0
regardless of the prior count; and as long as fewer than 2^31 = 2147483648
increments have happened since the last reset (or process start), the value
equals that increment count — in particular it is non-negative and each
in-range `Add(1)` adds exactly one.  Beyond 2^31 increments the 32-bit
counter wraps and the value goes negative. -/
theorem c8_counter_in_range :
    (∀ ops : List CounterOp, runCounter (ops ++ [.reset]) = 0)
    ∧ (∀ ops : List CounterOp, incsSinceReset ops < 2 ^ 31 →
        runCounter ops = incsSinceReset ops ∧ 0 ≤ runCounter ops)
    ∧ (∀ s : Int, 0 ≤ s → s + 1 < 2 ^ 31 → counterStep s .inc = s + 1) := by
  refine ⟨fun ops => ?_, fun ops h => ?_, fun s h1 h2 => ?_⟩
  · rw [runCounter_append]
    rfl
  · rw [runCounter_eq_wrap ops]
    unfold int32wrap
    omega
  · show int32wrap (s + 1) = s + 1
    unfold int32wrap
    omega

theorem c8_counter_in_range_witness :
    runCounter ([CounterOp.inc, CounterOp.inc] ++ [CounterOp.reset]) = 0
    ∧ (runCounter [CounterOp.inc, CounterOp.inc] =
        incsSinceReset [CounterOp.inc, CounterOp.inc]
      ∧ 0 ≤ runCounter [CounterOp.inc, CounterOp.inc])
    ∧ counterStep 5 CounterOp.inc = 6 :=
  ⟨c8_counter_in_range.1 [CounterOp.inc, CounterOp.inc],
   c8_counter_in_range.2.1 [CounterOp.inc, CounterOp.inc] (by decide),
   c8_counter_in_range.2.2 5 (by decide) (by decide)⟩

/-! ## The admin reset -/

/-- C4: when the configured platform is anything but "dev" — including the
absent case, which `main` defaults to "prod" — the reset handler returns
HTTP 403 with the Forbidden error body and performs no mutation at all: the
returned state is exactly the prior state (hit counter and user table
untouched), for every possible behaviour of the delete statement, because
the gate is checked before any mutation is attempted. -/
theorem c4_reset_platform_gate (platform : String) (st : ServerState)
    (dbExecDelete : List User → Except (List User) Unit)
    (h : platform ≠ "dev") :
    resetHandler platform st dbExecDelete = (403, RespBody.errMsg "Forbidden", st)
    ∧ effectivePlatform "" ≠ "dev" := by
  constructor
  · unfold resetHandler
    rw [if_pos h]
  · decide

theorem c4_reset_platform_gate_witness :
    resetHandler "prod" ⟨5, [⟨"u", "a@b.com", 0, 0⟩]⟩ (fun _ => .ok ()) =
      (403, RespBody.errMsg "Forbidden", ⟨5, [⟨"u", "a@b.com", 0, 0⟩]⟩)
    ∧ effectivePlatform "" ≠ "dev" :=
  c4_reset_platform_gate "prod" ⟨5, [⟨"u", "a@b.com", 0, 0⟩]⟩
    (fun _ => .ok ()) (by decide)

/-- C6: the reset-and-delete pair is not atomic.  When the platform gate
passes ("dev") and the user deletion fails, the handler answers HTTP 500
with an error body, yet the hit counter — already stored to 0 before the
delete was attempted — is not restored: whatever the prior count `st`
carried, the resulting state has counter 0 and whatever rows the failed
delete left behind. -/
theorem c6_reset_not_atomic (st : ServerState) (leftover : List User) :
    resetHandler "dev" st (fun _ => .error leftover) =
      (500, RespBody.errMsg "Failed to reset users", ⟨0, leftover⟩) := by
  rfl

/-! ## User creation -/

theorem uuidNew_ne_empty (n : Nat) : uuidNew n ≠ "" := by
  intro h
  have hd := congrArg String.data h
  exact List.noConfusion hd

theorem uuidNew_injective (n m : Nat) (h : n ≠ m) : uuidNew n ≠ uuidNew m := by
  intro he
  apply h
  have hd : 'u' :: List.replicate n 'x' = 'u' :: List.replicate m 'x' :=
    congrArg String.data he
  have hl := congrArg List.length hd
  simpa using hl

/-- C5 counterexample: the claim that `created_at` and `updated_at` are
identical at creation fails on the code, because `createUserHandler` calls
`time.Now()` twice (source lines 207-208): in the execution where the two
consecutive clock readings are 0 and 1, the returned record carries
`created_at = 0` and `updated_at = 1`, which differ. -/
theorem c5_counterexample_two_clock_reads :
    (createUserHandler (.ok "a@b.com") (uuidNew 0) 0 1 true []).2.1 =
      RespBody.userRecord (uuidNew 0) "a@b.com" 0 1
    ∧ (0 : Int) ≠ 1 := by
  constructor
  · rfl
  · decide

/-- C5 (amended): a successful create(email) call returns a record whose id
is the non-empty uuid of the call and is distinct across distinct calls,
whose `created_at` and `updated_at` are the two consecutive `time.Now()`
readings taken at creation (identical exactly when the clock did not
advance between the two reads), and the row persisted to storage carries
exactly the values returned to the caller. -/
theorem c5_user_creation (email : String) (n m : Nat) (t1 t2 : Int)
    (users : List User) (hnm : n ≠ m) :
    createUserHandler (.ok email) (uuidNew n) t1 t2 true users =
      (201, RespBody.userRecord (uuidNew n) email t1 t2,
        users ++ [⟨uuidNew n, email, t1, t2⟩])
    ∧ uuidNew n ≠ ""
    ∧ uuidNew n ≠ uuidNew m := by
  exact ⟨rfl, uuidNew_ne_empty n, uuidNew_injective n m hnm⟩

theorem c5_user_creation_witness :
    createUserHandler (.ok "a@b.com") (uuidNew 0) 3 3 true [] =
      (201, RespBody.userRecord (uuidNew 0) "a@b.com" 3 3,
        [] ++ [⟨uuidNew 0, "a@b.com", 3, 3⟩])
    ∧ uuidNew 0 ≠ ""
    ∧ uuidNew 0 ≠ uuidNew 1 :=
  c5_user_creation "a@b.com" 0 1 3 3 [] (by decide)

/-! ## Decoding the create-user request -/

theorem foldl_decodeEmailStep_ok (fields : List (String × Json)) :
    ∀ cur : String,
      (∀ kv ∈ fields, goToLower kv.1 = "email" →
        (∃ s, kv.2 = Json.str s) ∨ kv.2 = Json.null) →
      ∃ e, fields.foldl decodeEmailStep (.ok cur) = .ok e := by
  induction fields with
  | nil => exact fun cur _ => ⟨cur, rfl⟩
  | cons kv rest ih =>
    intro cur hkv
    have hrest : ∀ kv' ∈ rest, goToLower kv'.1 = "email" →
        (∃ s, kv'.2 = Json.str s) ∨ kv'.2 = Json.null :=
      fun kv' h' => hkv kv' (List.mem_cons_of_mem kv h')
    rw [List.foldl_cons]
    by_cases hk : goToLower kv.1 = "email"
    · rcases hkv kv (List.mem_cons_self kv rest) hk with ⟨s, hs⟩ | hnull
      · have hstep : decodeEmailStep (.ok cur) kv = .ok s := by
          simp [decodeEmailStep, hk, hs]
        rw [hstep]
        exact ih s hrest
      · have hstep : decodeEmailStep (.ok cur) kv = .ok cur := by
          simp [decodeEmailStep, hk, hnull]
        rw [hstep]
        exact ih cur hrest
    · have hstep : decodeEmailStep (.ok cur) kv = .ok cur := by
        simp [decodeEmailStep, hk]
      rw [hstep]
      exact ih cur hrest

theorem foldl_decodeEmailStep_skip (fields : List (String × Json)) :
    ∀ cur : String, (∀ kv ∈ fields, goToLower kv.1 ≠ "email") →
      fields.foldl decodeEmailStep (.ok cur) = .ok cur := by
  induction fields with
  | nil => exact fun cur _ => rfl
  | cons kv rest ih =>
    intro cur hkv
    rw [List.foldl_cons]
    have hstep : decodeEmailStep (.ok cur) kv = .ok cur := by
      simp [decodeEmailStep, hkv kv (List.mem_cons_self kv rest)]
    rw [hstep]
    exact ih cur fun kv' h' => hkv kv' (List.mem_cons_of_mem kv h')

/-- C10 counterexample: the claim that decoding succeeds for every request
whose body is a well-formed JSON object fails on the code: the well-formed
object with field "email" bound to the number 5 is an unmarshal type error
for the Go struct's string field, so the handler answers HTTP 400, not
201. -/
theorem c10_counterexample_email_number :
    decodeCreateUserReq (Json.obj [("email", Json.num 5)]) = .error ()
    ∧ (createUserHandlerJson (Json.obj [("email", Json.num 5)])
        (uuidNew 0) 0 0 true []).1 = 400 := by
  constructor
  · rfl
  · rfl

/-- C10 (amended): the create-user endpoint performs no validation of the
email string value.  Decoding succeeds for every well-formed JSON object
whose "email"-matching fields (matched case-insensitively, as Go's
encoding/json does) all hold a string or null — in particular when the
email field is missing, where it defaults to the empty string, and when
extra fields are present, which are ignored; but an email field holding a
number, boolean, array or object is a type error.  When decoding succeeds
and storage succeeds, the handler returns HTTP 201 carrying exactly the
decoded email (possibly empty), persisting the same values it returns. -/
theorem c10_create_user_decoding :
    (∀ fields : List (String × Json),
      (∀ kv ∈ fields, goToLower kv.1 = "email" →
        (∃ s, kv.2 = Json.str s) ∨ kv.2 = Json.null) →
      ∃ e, decodeCreateUserReq (.obj fields) = .ok e)
    ∧ (∀ fields : List (String × Json),
      (∀ kv ∈ fields, goToLower kv.1 ≠ "email") →
      decodeCreateUserReq (.obj fields) = .ok "")
    ∧ (∀ (e uid : String) (t1 t2 : Int) (users : List User),
      createUserHandlerJson (.obj [("email", .str e)]) uid t1 t2 true users =
        (201, RespBody.userRecord uid e t1 t2, users ++ [⟨uid, e, t1, t2⟩])) := by
  refine ⟨fun fields h => ?_, fun fields h => ?_, fun e uid t1 t2 users => ?_⟩
  · exact foldl_decodeEmailStep_ok fields "" h
  · exact foldl_decodeEmailStep_skip fields "" h
  · rfl

theorem c10_create_user_decoding_witness :
    (∃ e, decodeCreateUserReq
      (.obj [("Email", .str "x"), ("extra", .num 3)]) = .ok e)
    ∧ decodeCreateUserReq (.obj [("name", .str "n")]) = .ok ""
    ∧ createUserHandlerJson (.obj [("email", .str "")]) (uuidNew 0) 0 0 true [] =
        (201, RespBody.userRecord (uuidNew 0) "" 0 0,
          [] ++ [⟨uuidNew 0, "", 0, 0⟩]) :=
  ⟨c10_create_user_decoding.1 [("Email", .str "x"), ("extra", .num 3)]
    (by
      intro kv hkv
      rcases List.mem_cons.mp hkv with h | h
      · subst h
        exact fun _ => Or.inl ⟨"x", rfl⟩
      · rcases List.mem_cons.mp h with h' | h'
        · subst h'
          intro hc
          exact absurd hc (by decide)
        · exact absurd h' (List.not_mem_nil _)),
   c10_create_user_decoding.2.1 [("name", .str "n")]
    (by
      intro kv hkv
      rcases List.mem_cons.mp hkv with h | h
      · subst h
        decide
      · exact absurd h (List.not_mem_nil _)),
   c10_create_user_decoding.2.2 "" (uuidNew 0) 0 0 []⟩

end Chirpy
